import Mathlib

/-!
Verification of the Task-Manager state-management core.

The development shallowly embeds the JavaScript domain model
(src/models/Task.js: validateTaskTitle, validateTask, validateTasksArray,
validateFilter, generateTaskId, isValidUUID, createTask) and the task store
(src/context/TaskContext.jsx: TaskProvider with validatedTasks,
validatedFilter, addTask, toggleTaskCompletion, deleteTask, setFilter,
filteredTasks).  JavaScript exceptions are embedded as `Except` values;
functions of straight-line non-throwing code return `.ok` by construction.
-/

set_option maxHeartbeats 1000000

namespace TaskManager

/-- JavaScript runtime values, to the extent the task manager inspects them:
the primitives, arrays, and plain objects (own enumerable fields kept as an
association list, first binding wins as in a JS object literal after
de-duplication). -/
inductive JSValue : Type where
  | vNull
  | vUndefined
  | vBool (b : Bool)
  | vNum (n : Int)
  | vStr (s : String)
  | vArr (elems : List JSValue)
  | vObj (fields : List (String × JSValue))

/-- The result of the JavaScript `typeof` operator on an embedded value.
`typeof null` is the string "object". -/
def jsTypeof : JSValue → String
  | .vNull => "object"
  | .vUndefined => "undefined"
  | .vBool _ => "boolean"
  | .vNum _ => "number"
  | .vStr _ => "string"
  | .vArr _ => "object"
  | .vObj _ => "object"

/-- JavaScript ToBoolean (truthiness): null, undefined, false, 0 and the
empty string are falsy; every array and object is truthy. -/
def jsToBool : JSValue → Bool
  | .vNull => false
  | .vUndefined => false
  | .vBool b => b
  | .vNum n => n != 0
  | .vStr s => s != ""
  | .vArr _ => true
  | .vObj _ => true

/-- Property access `v.name` as the validators use it: a named own field of a
plain object, `undefined` otherwise (arrays carry no such named fields). -/
def jsGetField (v : JSValue) (name : String) : JSValue :=
  match v with
  | .vObj fields =>
    match fields.lookup name with
    | some w => w
    | none => .vUndefined
  | _ => .vUndefined

/-- Strict equality `s === v` between a known string and an arbitrary value:
true exactly when `v` is that same string. -/
def jsEqStr (s : String) (v : JSValue) : Bool :=
  match v with
  | .vStr t => s == t
  | _ => false

/-- The characters removed by JavaScript String.prototype.trim: tab, line
feed, vertical tab, form feed, carriage return, space, NBSP, BOM, the
Unicode space separators, and the line and paragraph separators. -/
def isJsWhitespace (c : Char) : Bool :=
  c == '\t' || c == '\n' || c == '\x0b' || c == '\x0c' || c == '\r' ||
  c == ' ' || c.toNat == 0xa0 || c.toNat == 0x1680 ||
  (decide (0x2000 ≤ c.toNat) && decide (c.toNat ≤ 0x200a)) ||
  c.toNat == 0x2028 || c.toNat == 0x2029 || c.toNat == 0x202f ||
  c.toNat == 0x205f || c.toNat == 0x3000 || c.toNat == 0xfeff

/-- JavaScript String.prototype.trim on the underlying character list. -/
def jsTrimList (l : List Char) : List Char :=
  ((l.dropWhile isJsWhitespace).reverse.dropWhile isJsWhitespace).reverse

/-- JavaScript `s.trim()`. -/
def jsTrim (s : String) : String :=
  String.mk (jsTrimList s.data)

/-- The failure kinds of the validation layer, one per distinct `Error`
message thrown by src/models/Task.js (`invalidTaskAt` is the wrapper
`Invalid task at index i: ...` of validateTasksArray). -/
inductive ErrKind : Type where
  | invalidTitle
  | emptyTitle
  | titleTooLong
  | notAnObject
  | missingId
  | invalidId
  | invalidCompletedFlag
  | notAnArray
  | invalidTaskAt (index : Nat) (inner : ErrKind)
  | invalidFilter
deriving DecidableEq

/-- validateTaskTitle from src/models/Task.js: a non-string fails with
`invalidTitle`; otherwise the title is trimmed, the empty trim fails with
`emptyTitle`, a trim longer than 500 characters fails with `titleTooLong`,
and the trimmed title is returned. -/
def validateTaskTitle (title : JSValue) : Except ErrKind String :=
  match title with
  | .vStr s =>
    let trimmedTitle := jsTrim s
    if trimmedTitle.length = 0 then .error .emptyTitle
    else if trimmedTitle.length > 500 then .error .titleTooLong
    else .ok trimmedTitle
  | _ => .error .invalidTitle

/-- Hexadecimal digits as the character class `[0-9a-f]` with the `i` flag:
decimal digits and the letters a-f in either case. -/
def isHexChar (c : Char) : Bool :=
  c.isDigit || (decide ('a' ≤ c) && decide (c ≤ 'f')) ||
  (decide ('A' ≤ c) && decide (c ≤ 'F'))

/-- Consume exactly `n` hexadecimal characters from the front of the list,
returning the remainder, as the regex fragment `[0-9a-f]{n}` does. -/
def takeHex : Nat → List Char → Option (List Char)
  | 0, l => some l
  | _ + 1, [] => none
  | n + 1, c :: rest => if isHexChar c then takeHex n rest else none

/-- Consume one literal character, as a literal in the regex does. -/
def takeLit (a : Char) : List Char → Option (List Char)
  | [] => none
  | c :: rest => if c = a then some rest else none

/-- The characters accepted for the variant nibble: the class `[89ab]`
under the `i` flag. -/
def variantChars : List Char := ['8', '9', 'a', 'b', 'A', 'B']

/-- Consume one variant-nibble character, as the regex fragment `[89ab]`
with the `i` flag does. -/
def takeVariant : List Char → Option (List Char)
  | [] => none
  | c :: rest => if c ∈ variantChars then some rest else none

/-- The anchored UUID regex of src/models/Task.js,
`^[0-9a-f]{8}-[0-9a-f]{4}-4[0-9a-f]{3}-[89ab][0-9a-f]{3}-[0-9a-f]{12}$`
with the `i` flag, as a sequential matcher that must consume the whole
string. -/
def uuidRegexTest (s : String) : Bool :=
  match ((((((((((takeHex 8 s.data).bind (takeLit '-')).bind
      (takeHex 4)).bind (takeLit '-')).bind (takeLit '4')).bind
      (takeHex 3)).bind (takeLit '-')).bind takeVariant).bind
      (takeHex 3)).bind (takeLit '-')).bind (takeHex 12) with
  | some [] => true
  | _ => false

/-- isValidUUID from src/models/Task.js: false for every non-string, else
the test of the anchored case-insensitive UUID v4 regex. -/
def isValidUUID (uuid : JSValue) : Bool :=
  match uuid with
  | .vStr s => uuidRegexTest s
  | _ => false

/-- validateTask from src/models/Task.js.  The checks run in order: the
candidate must be truthy and of typeof "object"; its id field must be
truthy (which an empty string is not) and a string; the id must pass
isValidUUID; the title field must pass validateTaskTitle (whose failure
kind propagates); the completed field must be of typeof "boolean". -/
def validateTask (task : JSValue) : Except ErrKind Unit :=
  if !jsToBool task || jsTypeof task != "object" then .error .notAnObject
  else if !jsToBool (jsGetField task "id") ||
      jsTypeof (jsGetField task "id") != "string" then .error .missingId
  else if !isValidUUID (jsGetField task "id") then .error .invalidId
  else
    match validateTaskTitle (jsGetField task "title") with
    | .error e => .error e
    | .ok _ =>
      if jsTypeof (jsGetField task "completed") != "boolean" then
        .error .invalidCompletedFlag
      else .ok ()

/-- The indexed forEach loop of validateTasksArray: the first failing
element aborts with its zero-based index wrapped around the inner error. -/
def validateTasksFrom : Nat → List JSValue → Except ErrKind Unit
  | _, [] => .ok ()
  | i, t :: rest =>
    match validateTask t with
    | .error e => .error (.invalidTaskAt i e)
    | .ok _ => validateTasksFrom (i + 1) rest

/-- validateTasksArray from src/models/Task.js: a non-array fails with
`notAnArray`; otherwise every element is validated in order. -/
def validateTasksArray (tasks : JSValue) : Except ErrKind Unit :=
  match tasks with
  | .vArr elems => validateTasksFrom 0 elems
  | _ => .error .notAnArray

/-- The accepted filter values of validateFilter. -/
def validFilters : List String := ["all", "completed", "pending"]

/-- validateFilter from src/models/Task.js: `validFilters.includes(filter)`
compares the candidate against each accepted string with strict equality. -/
def validateFilter (filter : JSValue) : Except ErrKind Unit :=
  if validFilters.any (fun s => jsEqStr s filter) then .ok ()
  else .error .invalidFilter

/-- The lowercase hexadecimal digit produced by `v.toString(16)` for a
nibble value. -/
def hexDigit (n : Fin 16) : Char :=
  if n.val < 10 then Char.ofNat (48 + n.val) else Char.ofNat (87 + n.val)

/-- The variant-position digit of the fallback generator: for a random
nibble `r`, the digit of `r & 0x3 | 0x8`, one of 8, 9, a, b. -/
def variantDigit (r : Fin 16) : Char :=
  hexDigit ⟨r.val % 4 + 8, by omega⟩

/-- The template string of the fallback generator in generateTaskId. -/
def uuidTemplate : String := "xxxxxxxx-xxxx-4xxx-yxxx-xxxxxxxxxxxx"

/-- The `replace(/[xy]/g, ...)` loop of the fallback generator: each `x` or
`y` consumes the next random nibble (`Math.random() * 16 | 0`, drawn from
the global generator), an `x` becomes that nibble's hex digit and a `y`
becomes the digit of `r & 0x3 | 0x8`; every other character is kept. -/
def fillTemplate : List Char → (Nat → Fin 16) → Nat → List Char
  | [], _, _ => []
  | c :: rest, draw, k =>
    if c = 'x' then hexDigit (draw k) :: fillTemplate rest draw (k + 1)
    else if c = 'y' then variantDigit (draw k) :: fillTemplate rest draw (k + 1)
    else c :: fillTemplate rest draw k

/-- The pseudo-random fallback path of generateTaskId from
src/models/Task.js, as a function of the stream of random nibbles it
draws (the crypto.randomUUID branch delegates to the platform and is not
part of this module's own algorithm). -/
def generateTaskId (draw : Nat → Fin 16) : String :=
  String.mk (fillTemplate uuidTemplate.data draw 0)

/-- Number of random nibbles one fallback call draws: the template holds
30 `x` characters and one `y`. -/
def drawsPerId : Nat := 31

/-- The i-th of a run of consecutive fallback calls sharing the global
random stream: call `i` consumes draws `31 * i` through `31 * i + 30`. -/
def generateTaskIdAt (draw : Nat → Fin 16) (i : Nat) : String :=
  generateTaskId (fun k => draw (drawsPerId * i + k))

/-- The Task entity: the shape every validated stored task has and every
task built by createTask gets. -/
structure Task : Type where
  id : String
  title : String
  completed : Bool
deriving DecidableEq

/-- createTask from src/models/Task.js: validates the title (propagating
its failure kind), then builds a task with a freshly generated id and
`completed := false`.  The generated id (crypto.randomUUID or the fallback
modelled by generateTaskId) is passed in as `freshId`. -/
def createTask (title : JSValue) (freshId : String) : Except ErrKind Task :=
  match validateTaskTitle title with
  | .error e => .error e
  | .ok validatedTitle =>
    .ok { id := freshId, title := validatedTitle, completed := false }

/-- The in-memory state the TaskProvider owns: the validated task
collection and the validated active filter. -/
structure StoreState : Type where
  tasks : List Task
  filter : String
deriving DecidableEq

/-- addTask from src/context/TaskContext.jsx: createTask may throw, and
the failure is re-raised to the caller; on success the new task is
appended to the end of the collection. -/
def addTask (st : StoreState) (title : JSValue) (freshId : String) :
    Except ErrKind StoreState :=
  match createTask title freshId with
  | .error e => .error e
  | .ok newTask => .ok { st with tasks := st.tasks ++ [newTask] }

/-- The map of toggleTaskCompletion: a task whose id strictly equals the
argument is replaced by a copy with the completed flag flipped; every
other task is returned unchanged. -/
def toggleTasks (tasks : List Task) (id : JSValue) : List Task :=
  tasks.map (fun task =>
    if jsEqStr task.id id then { task with completed := !task.completed }
    else task)

/-- toggleTaskCompletion from src/context/TaskContext.jsx: straight-line
code that never throws, so it always returns `.ok`. -/
def toggleTaskCompletion (st : StoreState) (id : JSValue) :
    Except ErrKind StoreState :=
  .ok { st with tasks := toggleTasks st.tasks id }

/-- The filter of deleteTask: keeps exactly the tasks whose id is not
strictly equal to the argument. -/
def deleteTasks (tasks : List Task) (id : JSValue) : List Task :=
  tasks.filter (fun task => !jsEqStr task.id id)

/-- deleteTask from src/context/TaskContext.jsx: straight-line code that
never throws, so it always returns `.ok`. -/
def deleteTask (st : StoreState) (id : JSValue) : Except ErrKind StoreState :=
  .ok { st with tasks := deleteTasks st.tasks id }

/-- setFilter from src/context/TaskContext.jsx: validateFilter may throw,
in which case the failure is logged and re-raised with the state left
untouched; on success the filter is updated (validateFilter guarantees the
argument is one of the three accepted strings, so the fallback arm of the
inner match is unreachable). -/
def setFilter (st : StoreState) (newFilter : JSValue) :
    Except ErrKind StoreState :=
  match validateFilter newFilter with
  | .error e => .error e
  | .ok _ =>
    match newFilter with
    | .vStr s => .ok { st with filter := s }
    | _ => .ok st

/-- filteredTasks from src/context/TaskContext.jsx: a pure derived view
switching on the validated filter; the `all` case and the default case
both return the whole collection. -/
def filteredTasks (tasks : List Task) (filter : String) : List Task :=
  match filter with
  | "completed" => tasks.filter (fun task => task.completed)
  | "pending" => tasks.filter (fun task => !task.completed)
  | _ => tasks

/-- What the self-healing load exposes and persists for each of the two
independent entries. -/
structure LoadResult : Type where
  exposedTasks : JSValue
  persistedTasks : JSValue
  exposedFilter : JSValue
  persistedFilter : JSValue

/-- The validatedTasks memo of TaskProvider: a collection failing
validateTasksArray is discarded, the empty array is exposed and written
back through setTasks.  Modelled from the spec: the useLocalStorage hook
backing setTasks is not among the sources, so its write is modelled per
the spec's adapter contract as storing the value under the entry (write
failures are swallowed and never change the exposed value). -/
def loadTasksEntry (rawTasks : JSValue) : JSValue × JSValue :=
  match validateTasksArray rawTasks with
  | .ok _ => (rawTasks, rawTasks)
  | .error _ => (.vArr [], .vArr [])

/-- The validatedFilter memo of TaskProvider: a value failing
validateFilter is discarded, "all" is exposed and written back through
setFilterState.  Modelled from the spec: the backing adapter write as in
loadTasksEntry. -/
def loadFilterEntry (rawFilter : JSValue) : JSValue × JSValue :=
  match validateFilter rawFilter with
  | .ok _ => (rawFilter, rawFilter)
  | .error _ => (.vStr "all", .vStr "all")

/-- The complete self-healing load: the two entries are recovered
independently, and the whole computation is total — neither path can
throw to the caller. -/
def loadStore (rawTasks rawFilter : JSValue) : LoadResult :=
  { exposedTasks := (loadTasksEntry rawTasks).1
    persistedTasks := (loadTasksEntry rawTasks).2
    exposedFilter := (loadFilterEntry rawFilter).1
    persistedFilter := (loadFilterEntry rawFilter).2 }

/-! Helper lemmas shared by the claim theorems. -/

theorem toggleTasks_twice (ts : List Task) (id : JSValue) :
    toggleTasks (toggleTasks ts id) id = ts := by
  induction ts with
  | nil => rfl
  | cons t rest ih =>
    obtain ⟨i, ti, c⟩ := t
    by_cases h : jsEqStr i id
    · simp only [toggleTasks, List.map_cons] at ih ⊢
      simp [h, Bool.not_not] at ih ⊢
      simpa [toggleTasks] using ih
    · simp only [toggleTasks, List.map_cons] at ih ⊢
      simp [h] at ih ⊢
      simpa [toggleTasks] using ih

theorem toggleTasks_no_match (ts : List Task) (id : JSValue)
    (h : ∀ t ∈ ts, jsEqStr t.id id = false) : toggleTasks ts id = ts := by
  induction ts with
  | nil => rfl
  | cons t rest ih =>
    simp only [toggleTasks, List.map_cons]
    rw [if_neg (by simp [h t (by simp)])]
    have := ih (fun u hu => h u (by simp [hu]))
    simpa [toggleTasks] using this

/-! Claim theorems. -/

/-- C2: for every task collection, the derived filteredTasks view under
filter "completed" is exactly the order-preserving subsequence of tasks
with completed = true, under "pending" the complementary subsequence, and
under "all" the full sequence; under any filter it is a sublist of the
collection.  The view is a pure function of the collection and the filter,
so computing it mutates neither. -/
theorem filteredTasks_projection (tasks : List Task) :
    filteredTasks tasks "completed" = tasks.filter (fun t => t.completed) ∧
    filteredTasks tasks "pending" = tasks.filter (fun t => !t.completed) ∧
    filteredTasks tasks "all" = tasks ∧
    ∀ filter : String, List.Sublist (filteredTasks tasks filter) tasks := by
  refine ⟨rfl, rfl, rfl, fun filter => ?_⟩
  unfold filteredTasks
  split
  · exact List.filter_sublist tasks
  · exact List.filter_sublist tasks
  · exact List.Sublist.refl tasks

/-- C5: applying toggleTaskCompletion twice with the same id returns the
store to its original state — each matching task's completed flag is
flipped and flipped back, non-matching tasks are untouched by both
applications — and when no task matches, a single application already
leaves the state unchanged and raises no error. -/
theorem toggleTaskCompletion_twice (st : StoreState) (id : JSValue) :
    (toggleTaskCompletion st id).bind (fun st2 => toggleTaskCompletion st2 id) =
      .ok st ∧
    ((∀ t ∈ st.tasks, jsEqStr t.id id = false) →
      toggleTaskCompletion st id = .ok st) := by
  obtain ⟨ts, fl⟩ := st
  constructor
  · show Except.ok _ = _
    simp [toggleTaskCompletion, toggleTasks_twice]
  · intro h
    simp [toggleTaskCompletion, toggleTasks_no_match ts id h]

/-- Witness for C5 at a concrete store and id: toggling a present id twice
restores the state, and toggling an absent id leaves it unchanged. -/
theorem toggleTaskCompletion_twice_witness :
    (toggleTaskCompletion ⟨[⟨"a1", "t", false⟩], "all"⟩ (.vStr "a1")).bind
      (fun st2 => toggleTaskCompletion st2 (.vStr "a1")) =
      .ok ⟨[⟨"a1", "t", false⟩], "all"⟩ ∧
    toggleTaskCompletion ⟨[⟨"a1", "t", false⟩], "all"⟩ (.vStr "zz") =
      .ok ⟨[⟨"a1", "t", false⟩], "all"⟩ := by
  refine ⟨(toggleTaskCompletion_twice _ _).1, ?_⟩
  exact (toggleTaskCompletion_twice ⟨[⟨"a1", "t", false⟩], "all"⟩ (.vStr "zz")).2
    (by intro t ht; simp at ht; subst ht; rfl)

/-- C9: frame property of the four operations — a successful setFilter
leaves the task collection identical, and addTask, toggleTaskCompletion
and deleteTask leave the active filter identical. -/
theorem frame_ops (st : StoreState) (v title : JSValue) (freshId : String) :
    (∀ st2, setFilter st v = .ok st2 → st2.tasks = st.tasks) ∧
    (∀ st2, addTask st title freshId = .ok st2 → st2.filter = st.filter) ∧
    (∀ st2, toggleTaskCompletion st v = .ok st2 → st2.filter = st.filter) ∧
    (∀ st2, deleteTask st v = .ok st2 → st2.filter = st.filter) := by
  refine ⟨?_, ?_, ?_, ?_⟩
  · intro st2 h
    unfold setFilter at h
    split at h
    · exact absurd h (by simp)
    · split at h <;> cases h <;> rfl
  · intro st2 h
    unfold addTask at h
    split at h
    · exact absurd h (by simp)
    · cases h; rfl
  · intro st2 h
    cases h; rfl
  · intro st2 h
    cases h; rfl

/-- Witness for C9 at concrete inputs: each operation applied to a
one-task store, with every hypothesis discharged by evaluation. -/
theorem frame_ops_witness :
    ({ tasks := [], filter := "completed" } : StoreState).tasks = [] ∧
    ({ tasks := [⟨"x1", "hi", false⟩], filter := "all" } : StoreState).filter = "all" := by
  have h := frame_ops ⟨[], "all"⟩ (.vStr "completed") (.vStr "hi") "x1"
  refine ⟨h.1 _ rfl, ?_⟩
  have h2 := frame_ops ⟨[], "all"⟩ (.vStr "completed") (.vStr "hi") "x1"
  exact h2.2.1 _ rfl

/-- C10: toggleTaskCompletion and deleteTask are total at the public
interface — for every argument value whatsoever and every collection they
return `.ok` — tasks whose id is not strictly equal to the argument keep
their value and position under toggle, and deleteTask keeps exactly the
tasks whose id is not strictly equal to the argument. -/
theorem toggle_delete_total (ts : List Task) (fl : String) (v : JSValue) :
    (∃ st2, toggleTaskCompletion ⟨ts, fl⟩ v = .ok st2 ∧
      st2.tasks.length = ts.length ∧
      (∀ i t, ts.get? i = some t → jsEqStr t.id v = false →
        st2.tasks.get? i = some t)) ∧
    (∃ st3, deleteTask ⟨ts, fl⟩ v = .ok st3 ∧
      (∀ t : Task, t ∈ st3.tasks ↔ t ∈ ts ∧ jsEqStr t.id v = false)) := by
  constructor
  · refine ⟨_, rfl, ?_, ?_⟩
    · simp [toggleTasks]
    · intro i t hget hne
      simp only [toggleTasks, List.get?_map, hget]
      simp [hne]
  · refine ⟨_, rfl, ?_⟩
    intro t
    simp [deleteTasks, List.mem_filter]

/-- Witness for C10 at a concrete collection and a non-string argument:
both operations return `.ok`, the non-matching task is untouched and is
kept by deleteTask. -/
theorem toggle_delete_total_witness :
    (∃ st2, toggleTaskCompletion ⟨[⟨"b2", "t", true⟩], "all"⟩ .vNull = .ok st2 ∧
      st2.tasks.get? 0 = some ⟨"b2", "t", true⟩) ∧
    (∃ st3, deleteTask ⟨[⟨"b2", "t", true⟩], "all"⟩ .vNull = .ok st3 ∧
      (⟨"b2", "t", true⟩ : Task) ∈ st3.tasks) := by
  obtain ⟨⟨st2, h2, _, hpt⟩, ⟨st3, h3, hmem⟩⟩ :=
    toggle_delete_total [⟨"b2", "t", true⟩] "all" .vNull
  exact ⟨⟨st2, h2, hpt 0 _ rfl rfl⟩, ⟨st3, h3, (hmem _).mpr ⟨by simp, rfl⟩⟩⟩

theorem validateFilter_ok_iff (v : JSValue) :
    validateFilter v = .ok () ↔
      (v = .vStr "all" ∨ v = .vStr "completed" ∨ v = .vStr "pending") := by
  cases v <;>
    simp only [validateFilter, validFilters, jsEqStr, List.any_cons,
      List.any_nil, Bool.or_false] <;>
    try simp
  rename_i s
  by_cases h1 : s = "all"
  · simp [h1]
  · by_cases h2 : s = "completed"
    · simp [h2]
    · by_cases h3 : s = "pending"
      · simp [h3]
      · have e1 : ("all" == s) = false := by
          simp [beq_iff_eq]; exact fun h => h1 h.symm
        have e2 : ("completed" == s) = false := by
          simp [beq_iff_eq]; exact fun h => h2 h.symm
        have e3 : ("pending" == s) = false := by
          simp [beq_iff_eq]; exact fun h => h3 h.symm
        simp [e1, e2, e3, h1, h2, h3]
        exact ⟨fun h => h1 h.symm, fun h => h2 h.symm, fun h => h3 h.symm⟩

theorem validateFilter_error (v : JSValue) (e : ErrKind)
    (h : validateFilter v = .error e) : e = .invalidFilter := by
  unfold validateFilter at h
  split at h
  · cases h
  · cases h; rfl

/-- C3: setFilter succeeds exactly when its argument is one of the strings
"all", "completed", "pending"; on success the active filter becomes that
string and the task collection is untouched; on failure the raised error
is the filter-validation failure, and — the operation returning no new
state — the current filter and collection are left unchanged. -/
theorem setFilter_spec (st : StoreState) (v : JSValue) :
    ((∃ st2, setFilter st v = .ok st2) ↔
      (v = .vStr "all" ∨ v = .vStr "completed" ∨ v = .vStr "pending")) ∧
    (∀ s st2, v = .vStr s → setFilter st v = .ok st2 →
      st2.filter = s ∧ st2.tasks = st.tasks) ∧
    (∀ e, setFilter st v = .error e → e = .invalidFilter) := by
  refine ⟨?_, ?_, ?_⟩
  · constructor
    · rintro ⟨st2, h⟩
      rw [← validateFilter_ok_iff]
      unfold setFilter at h
      cases hv : validateFilter v with
      | ok u => cases u; rfl
      | error e => rw [hv] at h; cases h
    · intro h
      have hok := (validateFilter_ok_iff v).mpr h
      rcases h with h | h | h <;> subst h <;>
        exact ⟨_, by unfold setFilter; rw [hok]⟩
  · rintro s st2 rfl h
    unfold setFilter at h
    split at h
    · cases h
    · cases h; exact ⟨rfl, rfl⟩
  · intro e h
    unfold setFilter at h
    cases hv : validateFilter v with
    | ok u =>
      cases u; rw [hv] at h
      cases v <;> simp at h
    | error e2 =>
      rw [hv] at h; cases h
      exact validateFilter_error v e hv

/-- Witness for C3 at concrete inputs: a valid filter is accepted and
set atomically, an invalid one is rejected with the filter error. -/
theorem setFilter_spec_witness :
    (∃ st2, setFilter ⟨[], "all"⟩ (.vStr "pending") = .ok st2) ∧
    ({ tasks := ([] : List Task), filter := "pending" } : StoreState).filter =
      "pending" ∧
    (ErrKind.invalidFilter = ErrKind.invalidFilter) := by
  refine ⟨?_, ?_, ?_⟩
  · exact (setFilter_spec ⟨[], "all"⟩ (.vStr "pending")).1.mpr
      (Or.inr (Or.inr rfl))
  · exact ((setFilter_spec ⟨[], "all"⟩ (.vStr "pending")).2.1 "pending" _
      rfl rfl).1
  · exact (setFilter_spec ⟨[], "all"⟩ (.vNum 7)).2.2 _ rfl

theorem dropWhile_eq_self_of (p : Char → Bool) (l : List Char)
    (h : ∀ c ∈ l, p c = false) : l.dropWhile p = l := by
  cases l with
  | nil => rfl
  | cons a t => simp [List.dropWhile_cons, h a (by simp)]

theorem jsTrim_of_no_ws (l : List Char)
    (h : ∀ c ∈ l, isJsWhitespace c = false) :
    jsTrim (String.mk l) = String.mk l := by
  unfold jsTrim jsTrimList
  rw [dropWhile_eq_self_of _ _ h,
    dropWhile_eq_self_of _ _ (fun c hc => h c (List.mem_reverse.mp hc)),
    List.reverse_reverse]

/-- C6: title length boundary of validateTaskTitle — a string whose
trimmed form is longer than 500 characters fails with the too-long error,
one whose trimmed form has length exactly 500 succeeds returning the
trimmed string, and one whose trimmed form is empty fails with the
empty-title error. -/
theorem validateTaskTitle_boundary (s : String) :
    ((jsTrim s).length > 500 →
      validateTaskTitle (.vStr s) = .error .titleTooLong) ∧
    ((jsTrim s).length = 500 →
      validateTaskTitle (.vStr s) = .ok (jsTrim s)) ∧
    ((jsTrim s).length = 0 →
      validateTaskTitle (.vStr s) = .error .emptyTitle) := by
  refine ⟨fun h => ?_, fun h => ?_, fun h => ?_⟩ <;>
    simp [validateTaskTitle, h] <;> omega

/-- Witness for C6 at concrete strings of trimmed lengths 501, 500 and 0. -/
theorem validateTaskTitle_boundary_witness :
    validateTaskTitle (.vStr (String.mk (List.replicate 501 'a'))) =
      .error .titleTooLong ∧
    validateTaskTitle (.vStr (String.mk (List.replicate 500 'a'))) =
      .ok (String.mk (List.replicate 500 'a')) ∧
    validateTaskTitle (.vStr "  ") = .error .emptyTitle := by
  have hws : ∀ n : Nat, ∀ c ∈ List.replicate n 'a', isJsWhitespace c = false := by
    intro n c hc
    rw [(List.eq_of_mem_replicate hc : c = 'a')]
    rfl
  have h501 : jsTrim (String.mk (List.replicate 501 'a')) =
      String.mk (List.replicate 501 'a') := jsTrim_of_no_ws _ (hws 501)
  have h500 : jsTrim (String.mk (List.replicate 500 'a')) =
      String.mk (List.replicate 500 'a') := jsTrim_of_no_ws _ (hws 500)
  refine ⟨?_, ?_, ?_⟩
  · refine (validateTaskTitle_boundary _).1 ?_
    rw [h501]
    show (List.replicate 501 'a').length > 500
    rw [List.length_replicate]
    omega
  · have h : (jsTrim (String.mk (List.replicate 500 'a'))).length = 500 := by
      rw [h500]
      show (List.replicate 500 'a').length = 500
      rw [List.length_replicate]
    have := (validateTaskTitle_boundary _).2.1 h
    rwa [h500] at this
  · exact (validateTaskTitle_boundary "  ").2.2 (by rfl)

/-- C1: self-healing load — whenever the persisted task collection fails
validateTasksArray, the store exposes the empty collection and writes the
empty collection back to the persisted tasks entry; whenever the persisted
filter fails validateFilter, the store exposes "all" and writes "all"
back; the two recovery paths are independent: the tasks side of the result
does not depend on the raw filter and the filter side does not depend on
the raw tasks.  loadStore is a total function, so neither path throws. -/
theorem loadStore_self_healing (rawTasks rawFilter : JSValue) :
    ((∃ e, validateTasksArray rawTasks = .error e) →
      (loadStore rawTasks rawFilter).exposedTasks = .vArr [] ∧
      (loadStore rawTasks rawFilter).persistedTasks = .vArr []) ∧
    ((∃ e, validateFilter rawFilter = .error e) →
      (loadStore rawTasks rawFilter).exposedFilter = .vStr "all" ∧
      (loadStore rawTasks rawFilter).persistedFilter = .vStr "all") ∧
    (∀ rawFilter2,
      (loadStore rawTasks rawFilter).exposedTasks =
        (loadStore rawTasks rawFilter2).exposedTasks ∧
      (loadStore rawTasks rawFilter).persistedTasks =
        (loadStore rawTasks rawFilter2).persistedTasks) ∧
    (∀ rawTasks2,
      (loadStore rawTasks rawFilter).exposedFilter =
        (loadStore rawTasks2 rawFilter).exposedFilter ∧
      (loadStore rawTasks rawFilter).persistedFilter =
        (loadStore rawTasks2 rawFilter).persistedFilter) := by
  refine ⟨?_, ?_, fun _ => ⟨rfl, rfl⟩, fun _ => ⟨rfl, rfl⟩⟩
  · rintro ⟨e, he⟩
    simp [loadStore, loadTasksEntry, he]
  · rintro ⟨e, he⟩
    simp [loadStore, loadFilterEntry, he]

/-- Witness for C1 at concretely corrupt persisted values: a non-array
tasks entry and the filter string "bogus" are both healed. -/
theorem loadStore_self_healing_witness :
    (loadStore (.vStr "not json") (.vStr "bogus")).exposedTasks = .vArr [] ∧
    (loadStore (.vStr "not json") (.vStr "bogus")).persistedTasks = .vArr [] ∧
    (loadStore (.vStr "not json") (.vStr "bogus")).exposedFilter =
      .vStr "all" ∧
    (loadStore (.vStr "not json") (.vStr "bogus")).persistedFilter =
      .vStr "all" := by
  obtain ⟨h1, h2, _, _⟩ :=
    loadStore_self_healing (.vStr "not json") (.vStr "bogus")
  obtain ⟨ha, hb⟩ := h1 ⟨.notAnArray, rfl⟩
  obtain ⟨hc, hd⟩ := h2 ⟨.invalidFilter, rfl⟩
  exact ⟨ha, hb, hc, hd⟩

/-- The canonical 8-4-4-4-12 hex-grouped UUID v4 shape described by the
spec, stated independently of the matcher: five hyphen-separated groups of
hexadecimal characters of lengths 8, 4, 4, 4 and 12, the version nibble
(first character of the third group) fixed to 4 and the variant nibble
(first character of the fourth group) one of 8, 9, a, b, hex letters in
either case. -/
def UUIDv4Shaped (s : String) : Prop :=
  ∃ g1 g2 g3 g4 g5 : List Char,
    s.data = g1 ++ '-' :: (g2 ++ '-' :: (g3 ++ '-' :: (g4 ++ '-' :: g5))) ∧
    g1.length = 8 ∧ g2.length = 4 ∧ g3.length = 4 ∧ g4.length = 4 ∧
    g5.length = 12 ∧
    g1.all isHexChar = true ∧ g2.all isHexChar = true ∧
    g3.all isHexChar = true ∧ g4.all isHexChar = true ∧
    g5.all isHexChar = true ∧
    g3.head? = some '4' ∧ ∃ c, g4.head? = some c ∧ c ∈ variantChars

theorem takeHex_eq_some_iff (n : Nat) (l r : List Char) :
    takeHex n l = some r ↔
      ∃ g, l = g ++ r ∧ g.length = n ∧ g.all isHexChar = true := by
  induction n generalizing l with
  | zero =>
    simp only [takeHex, Option.some.injEq]
    constructor
    · rintro rfl
      exact ⟨[], rfl, rfl, rfl⟩
    · rintro ⟨g, rfl, hg, _⟩
      rw [List.length_eq_zero.mp hg]
      rfl
  | succ n ih =>
    cases l with
    | nil =>
      simp only [takeHex]
      constructor
      · rintro ⟨⟩
      · rintro ⟨g, hg, hlen, _⟩
        rcases List.append_eq_nil.mp hg.symm with ⟨rfl, -⟩
        cases hlen
    | cons c cs =>
      by_cases hc : isHexChar c = true
      · rw [show takeHex (n + 1) (c :: cs) = takeHex n cs by
          simp [takeHex, hc], ih]
        constructor
        · rintro ⟨g, rfl, hlen, hhex⟩
          exact ⟨c :: g, rfl, by simp [hlen], by simp [hc, hhex]⟩
        · rintro ⟨g, hg, hlen, hhex⟩
          cases g with
          | nil => cases hlen
          | cons d g0 =>
            rw [List.cons_append] at hg
            injection hg with h1 h2
            subst h1
            subst h2
            refine ⟨g0, rfl, by simpa using hlen, ?_⟩
            simp only [List.all_cons, Bool.and_eq_true] at hhex
            exact hhex.2
      · rw [show takeHex (n + 1) (c :: cs) = none by simp [takeHex, hc]]
        constructor
        · rintro ⟨⟩
        · rintro ⟨g, hg, hlen, hhex⟩
          cases g with
          | nil => cases hlen
          | cons d g0 =>
            rw [List.cons_append] at hg
            injection hg with h1 h2
            subst h1
            simp only [List.all_cons, Bool.and_eq_true] at hhex
            exact absurd hhex.1 hc

theorem takeLit_eq_some_iff (a : Char) (l r : List Char) :
    takeLit a l = some r ↔ l = a :: r := by
  cases l with
  | nil =>
    simp [takeLit]
  | cons c cs =>
    by_cases h : c = a
    · subst h
      simp [takeLit]
    · simp only [takeLit, if_neg h]
      constructor
      · rintro ⟨⟩
      · intro hc
        injection hc with h1 h2
        exact absurd h1 h

theorem takeVariant_eq_some_iff (l r : List Char) :
    takeVariant l = some r ↔ ∃ c, l = c :: r ∧ c ∈ variantChars := by
  cases l with
  | nil =>
    simp [takeVariant]
  | cons c cs =>
    by_cases h : c ∈ variantChars
    · simp only [takeVariant, if_pos h, Option.some.injEq]
      constructor
      · rintro rfl
        exact ⟨c, rfl, h⟩
      · rintro ⟨d, hd, -⟩
        exact (List.cons.injEq c cs d r ▸ hd).2.symm ▸ rfl
    · simp only [takeVariant, if_neg h]
      constructor
      · rintro ⟨⟩
      · rintro ⟨d, hd, hdm⟩
        obtain ⟨rfl, -⟩ := List.cons.injEq c cs d r ▸ hd
        exact absurd hdm h

theorem variantChars_hex : ∀ c ∈ variantChars, isHexChar c = true := by
  decide

theorem uuidRegexTest_iff (s : String) :
    uuidRegexTest s = true ↔ UUIDv4Shaped s := by
  constructor
  · intro h
    unfold uuidRegexTest at h
    split at h
    case h_2 => cases h
    case h_1 heq =>
      obtain ⟨r10, hch9, h12⟩ := Option.bind_eq_some.mp heq
      obtain ⟨r9, hch8, h10⟩ := Option.bind_eq_some.mp hch9
      obtain ⟨r8, hch7, h9⟩ := Option.bind_eq_some.mp hch8
      obtain ⟨r7, hch6, h8⟩ := Option.bind_eq_some.mp hch7
      obtain ⟨r6, hch5, h7⟩ := Option.bind_eq_some.mp hch6
      obtain ⟨r5, hch4, h6⟩ := Option.bind_eq_some.mp hch5
      obtain ⟨r4, hch3, h5⟩ := Option.bind_eq_some.mp hch4
      obtain ⟨r3, hch2, h4⟩ := Option.bind_eq_some.mp hch3
      obtain ⟨r2, hch1, h3⟩ := Option.bind_eq_some.mp hch2
      obtain ⟨r1, h1, h2⟩ := Option.bind_eq_some.mp hch1
      obtain ⟨g1, hd1, hl1, hx1⟩ := (takeHex_eq_some_iff _ _ _).mp h1
      have hd2 := (takeLit_eq_some_iff _ _ _).mp h2
      obtain ⟨g2, hd3, hl2, hx2⟩ := (takeHex_eq_some_iff _ _ _).mp h3
      have hd4 := (takeLit_eq_some_iff _ _ _).mp h4
      have hd5 := (takeLit_eq_some_iff _ _ _).mp h5
      obtain ⟨t3, hd6, hl3, hx3⟩ := (takeHex_eq_some_iff _ _ _).mp h6
      have hd7 := (takeLit_eq_some_iff _ _ _).mp h7
      obtain ⟨c, hd8, hcm⟩ := (takeVariant_eq_some_iff _ _).mp h8
      obtain ⟨t4, hd9, hl4, hx4⟩ := (takeHex_eq_some_iff _ _ _).mp h9
      have hd10 := (takeLit_eq_some_iff _ _ _).mp h10
      obtain ⟨g5, hd11, hl5, hx5⟩ := (takeHex_eq_some_iff _ _ _).mp h12
      rw [List.append_nil] at hd11
      refine ⟨g1, g2, '4' :: t3, c :: t4, g5, ?_, hl1, hl2, by simp [hl3],
        by simp [hl4], hl5, hx1, hx2, ?_, ?_, hx5, rfl,
        c, rfl, hcm⟩
      · rw [hd1, hd2, hd3, hd4, hd5, hd6, hd7, hd8, hd9, hd10, hd11]
        simp [List.cons_append, List.append_assoc]
      · simp only [List.all_cons, Bool.and_eq_true]
        exact ⟨by decide, hx3⟩
      · simp only [List.all_cons, Bool.and_eq_true]
        exact ⟨variantChars_hex c hcm, hx4⟩
  · rintro ⟨g1, g2, g3, g4, g5, hdata, hl1, hl2, hl3, hl4, hl5,
      hx1, hx2, hx3, hx4, hx5, hhead3, c, hhead4, hcm⟩
    obtain ⟨t3, rfl⟩ : ∃ t3, g3 = '4' :: t3 := by
      cases g3 with
      | nil => cases hhead3
      | cons d t =>
        obtain rfl : d = '4' := by simpa using hhead3
        exact ⟨t, rfl⟩
    obtain ⟨t4, rfl⟩ : ∃ t4, g4 = c :: t4 := by
      cases g4 with
      | nil => cases hhead4
      | cons d t =>
        obtain rfl : d = c := by simpa using hhead4
        exact ⟨t, rfl⟩
    simp only [List.all_cons, Bool.and_eq_true] at hx3 hx4
    have hdata2 : s.data =
        g1 ++ '-' :: (g2 ++ '-' :: ('4' :: (t3 ++ '-' :: (c :: (t4 ++ '-' :: g5))))) := by
      rw [hdata]
      simp [List.cons_append]
    have hchain : ((((((((((takeHex 8 s.data).bind (takeLit '-')).bind
        (takeHex 4)).bind (takeLit '-')).bind (takeLit '4')).bind
        (takeHex 3)).bind (takeLit '-')).bind takeVariant).bind
        (takeHex 3)).bind (takeLit '-')).bind (takeHex 12) = some [] := ?_
    · unfold uuidRegexTest
      rw [hchain]
    refine Option.bind_eq_some.mpr ⟨g5, ?_,
      (takeHex_eq_some_iff _ _ _).mpr ⟨g5, (List.append_nil g5).symm, hl5, hx5⟩⟩
    refine Option.bind_eq_some.mpr ⟨'-' :: g5, ?_, by simp [takeLit]⟩
    refine Option.bind_eq_some.mpr ⟨t4 ++ '-' :: g5, ?_,
      (takeHex_eq_some_iff _ _ _).mpr ⟨t4, rfl, by simpa using hl4, hx4.2⟩⟩
    refine Option.bind_eq_some.mpr ⟨c :: (t4 ++ '-' :: g5), ?_,
      by simp [takeVariant, hcm]⟩
    refine Option.bind_eq_some.mpr ⟨'-' :: (c :: (t4 ++ '-' :: g5)), ?_,
      by simp [takeLit]⟩
    refine Option.bind_eq_some.mpr ⟨t3 ++ '-' :: (c :: (t4 ++ '-' :: g5)), ?_,
      (takeHex_eq_some_iff _ _ _).mpr ⟨t3, rfl, by simpa using hl3, hx3.2⟩⟩
    refine Option.bind_eq_some.mpr
      ⟨'4' :: (t3 ++ '-' :: (c :: (t4 ++ '-' :: g5))), ?_, by simp [takeLit]⟩
    refine Option.bind_eq_some.mpr
      ⟨'-' :: ('4' :: (t3 ++ '-' :: (c :: (t4 ++ '-' :: g5)))), ?_,
      by simp [takeLit]⟩
    refine Option.bind_eq_some.mpr
      ⟨g2 ++ '-' :: ('4' :: (t3 ++ '-' :: (c :: (t4 ++ '-' :: g5)))), ?_,
      (takeHex_eq_some_iff _ _ _).mpr ⟨g2, rfl, hl2, hx2⟩⟩
    refine Option.bind_eq_some.mpr
      ⟨'-' :: (g2 ++ '-' :: ('4' :: (t3 ++ '-' :: (c :: (t4 ++ '-' :: g5))))), ?_,
      by simp [takeLit]⟩
    exact (takeHex_eq_some_iff _ _ _).mpr ⟨g1, hdata2, hl1, hx1⟩

/-- C7: isValidUUID returns true on a string exactly when the string has
the canonical 8-4-4-4-12 hex-grouped UUID v4 shape with version nibble 4
and variant nibble in 8, 9, a, b compared case-insensitively, and returns
false on every non-string value; being a total function, it never
throws. -/
theorem isValidUUID_spec :
    (∀ s : String, isValidUUID (.vStr s) = true ↔ UUIDv4Shaped s) ∧
    (∀ v : JSValue, (∀ s, v ≠ .vStr s) → isValidUUID v = false) := by
  constructor
  · intro s
    exact uuidRegexTest_iff s
  · intro v hv
    cases v with
    | vStr s => exact absurd rfl (hv s)
    | vNull => rfl
    | vUndefined => rfl
    | vBool b => rfl
    | vNum n => rfl
    | vArr l => rfl
    | vObj f => rfl

/-- Witness for C7: isValidUUID applied to the non-string null, with the
non-string hypothesis discharged. -/
theorem isValidUUID_spec_witness : isValidUUID JSValue.vNull = false :=
  isValidUUID_spec.2 JSValue.vNull (fun _ h => JSValue.noConfusion h)

theorem hexDigit_isHex : ∀ r : Fin 16, isHexChar (hexDigit r) = true := by
  decide

theorem variantDigit_mem : ∀ r : Fin 16, variantDigit r ∈ variantChars := by
  decide

theorem hexDigit_inj : ∀ a b : Fin 16, hexDigit a = hexDigit b → a = b := by
  decide

theorem generateTaskId_data (draw : Nat → Fin 16) :
    (generateTaskId draw).data =
      [hexDigit (draw 0), hexDigit (draw 1), hexDigit (draw 2),
       hexDigit (draw 3), hexDigit (draw 4), hexDigit (draw 5),
       hexDigit (draw 6), hexDigit (draw 7), '-',
       hexDigit (draw 8), hexDigit (draw 9), hexDigit (draw 10),
       hexDigit (draw 11), '-',
       '4', hexDigit (draw 12), hexDigit (draw 13), hexDigit (draw 14), '-',
       variantDigit (draw 15), hexDigit (draw 16), hexDigit (draw 17),
       hexDigit (draw 18), '-',
       hexDigit (draw 19), hexDigit (draw 20), hexDigit (draw 21),
       hexDigit (draw 22), hexDigit (draw 23), hexDigit (draw 24),
       hexDigit (draw 25), hexDigit (draw 26), hexDigit (draw 27),
       hexDigit (draw 28), hexDigit (draw 29), hexDigit (draw 30)] := rfl

theorem generateTaskId_shaped (draw : Nat → Fin 16) :
    UUIDv4Shaped (generateTaskId draw) := by
  refine ⟨[hexDigit (draw 0), hexDigit (draw 1), hexDigit (draw 2),
      hexDigit (draw 3), hexDigit (draw 4), hexDigit (draw 5),
      hexDigit (draw 6), hexDigit (draw 7)],
    [hexDigit (draw 8), hexDigit (draw 9), hexDigit (draw 10),
      hexDigit (draw 11)],
    ['4', hexDigit (draw 12), hexDigit (draw 13), hexDigit (draw 14)],
    [variantDigit (draw 15), hexDigit (draw 16), hexDigit (draw 17),
      hexDigit (draw 18)],
    [hexDigit (draw 19), hexDigit (draw 20), hexDigit (draw 21),
      hexDigit (draw 22), hexDigit (draw 23), hexDigit (draw 24),
      hexDigit (draw 25), hexDigit (draw 26), hexDigit (draw 27),
      hexDigit (draw 28), hexDigit (draw 29), hexDigit (draw 30)],
    rfl, rfl, rfl, rfl, rfl, rfl, ?_, ?_, ?_, ?_, ?_, rfl,
    variantDigit (draw 15), rfl, variantDigit_mem _⟩ <;>
    simp [List.all_cons, hexDigit_isHex,
      variantChars_hex _ (variantDigit_mem (draw 15)),
      show isHexChar '4' = true from by decide]

/-- C8 as amended: every id the pseudo-random fallback of generateTaskId
produces — for any sequence of random draws whatsoever — satisfies
isValidUUID (in particular its version nibble is 4 and its variant nibble
in 8, 9, a, b); and two generated ids can only coincide when the two
calls drew identical nibbles at each of the thirty `x` positions (draw
index 15, the variant draw, is masked by `r & 0x3 | 0x8` and may differ),
so ids from calls whose draws differ at any `x` position are distinct.
Unconditional pairwise distinctness of 1000 consecutive calls does not
hold: see the counterexample. -/
theorem generateTaskId_valid_and_distinct :
    (∀ draw : Nat → Fin 16,
      isValidUUID (.vStr (generateTaskId draw)) = true) ∧
    (∀ d1 d2 : Nat → Fin 16, generateTaskId d1 = generateTaskId d2 →
      ∀ k, k < 31 → k ≠ 15 → d1 k = d2 k) := by
  constructor
  · intro draw
    show uuidRegexTest (generateTaskId draw) = true
    exact (uuidRegexTest_iff _).mpr (generateTaskId_shaped draw)
  · intro d1 d2 h k hk hk15
    have hd := congrArg String.data h
    rw [generateTaskId_data, generateTaskId_data] at hd
    simp only [List.cons.injEq, eq_self_iff_true, true_and, and_true] at hd
    obtain ⟨e0, e1, e2, e3, e4, e5, e6, e7, e8, e9, e10, e11, e12, e13,
      e14, ey, e16, e17, e18, e19, e20, e21, e22, e23, e24, e25, e26,
      e27, e28, e29, e30⟩ := hd
    interval_cases k
    · exact hexDigit_inj _ _ e0
    · exact hexDigit_inj _ _ e1
    · exact hexDigit_inj _ _ e2
    · exact hexDigit_inj _ _ e3
    · exact hexDigit_inj _ _ e4
    · exact hexDigit_inj _ _ e5
    · exact hexDigit_inj _ _ e6
    · exact hexDigit_inj _ _ e7
    · exact hexDigit_inj _ _ e8
    · exact hexDigit_inj _ _ e9
    · exact hexDigit_inj _ _ e10
    · exact hexDigit_inj _ _ e11
    · exact hexDigit_inj _ _ e12
    · exact hexDigit_inj _ _ e13
    · exact hexDigit_inj _ _ e14
    · exact absurd rfl hk15
    · exact hexDigit_inj _ _ e16
    · exact hexDigit_inj _ _ e17
    · exact hexDigit_inj _ _ e18
    · exact hexDigit_inj _ _ e19
    · exact hexDigit_inj _ _ e20
    · exact hexDigit_inj _ _ e21
    · exact hexDigit_inj _ _ e22
    · exact hexDigit_inj _ _ e23
    · exact hexDigit_inj _ _ e24
    · exact hexDigit_inj _ _ e25
    · exact hexDigit_inj _ _ e26
    · exact hexDigit_inj _ _ e27
    · exact hexDigit_inj _ _ e28
    · exact hexDigit_inj _ _ e29
    · exact hexDigit_inj _ _ e30

/-- Witness for C8 at the concrete all-zero draw sequence: the generated
id is UUID-valid, and the draw-agreement conclusion applied to two equal
calls with every hypothesis discharged. -/
theorem generateTaskId_valid_and_distinct_witness :
    isValidUUID (.vStr (generateTaskId (fun _ => (0 : Fin 16)))) = true ∧
    (fun _ => (0 : Fin 16)) 3 = (fun _ => (0 : Fin 16)) 3 := by
  refine ⟨generateTaskId_valid_and_distinct.1 _, ?_⟩
  exact generateTaskId_valid_and_distinct.2 (fun _ => 0) (fun _ => 0) rfl 3
    (by omega) (by omega)

/-- Counterexample to C8 as stated: the random source can repeat — here
two consecutive fallback calls whose Math.random draws all yield 0 — and
then the two generated ids are equal, so 1000 consecutive ids need not be
pairwise distinct. -/
theorem generateTaskId_collision :
    generateTaskIdAt (fun _ => (0 : Fin 16)) 0 =
      generateTaskIdAt (fun _ => (0 : Fin 16)) 1 := rfl

theorem objCheck_true_iff (v : JSValue) :
    (!jsToBool v || jsTypeof v != "object") = true ↔
      (v = .vNull ∨ jsTypeof v ≠ "object") := by
  cases v <;> simp [jsToBool, jsTypeof]

theorem idCheck_true_iff (w : JSValue) :
    (!jsToBool w || jsTypeof w != "string") = true ↔
      ¬∃ s, w = .vStr s ∧ s ≠ "" := by
  cases w <;> simp [jsToBool, jsTypeof]

theorem typeof_boolean_iff (w : JSValue) :
    jsTypeof w = "boolean" ↔ ∃ b, w = .vBool b := by
  cases w <;> simp [jsTypeof]

theorem validateTaskTitle_error_kinds (w : JSValue) (e : ErrKind)
    (h : validateTaskTitle w = .error e) :
    e = .invalidTitle ∨ e = .emptyTitle ∨ e = .titleTooLong := by
  unfold validateTaskTitle at h
  cases w
  case vStr s =>
    dsimp only at h
    split at h
    · cases h
      exact Or.inr (Or.inl rfl)
    · split at h
      · cases h
        exact Or.inr (Or.inr rfl)
      · cases h
  all_goals
    cases h
  all_goals
    exact Or.inl rfl

/-- C4 as amended: the checks of validateTask run in order and each
failure kind is raised exactly when its check is the first to fail —
NotAnObject iff the candidate is null or not object-shaped; MissingId iff
the id field is absent, not a string, or the empty string (the code tests
the field for truthiness, so an empty-string id is reported as missing,
not as invalid); InvalidId iff the id is a nonempty string that does not
match the UUID regex; with those checks passed, a title failure
propagates its own kind; InvalidCompletedFlag iff the title validates and
completed is not a boolean; success iff all checks pass. -/
theorem validateTask_cases (v : JSValue) :
    (validateTask v = .error .notAnObject ↔
      (v = .vNull ∨ jsTypeof v ≠ "object")) ∧
    (validateTask v = .error .missingId ↔
      ((v ≠ .vNull ∧ jsTypeof v = "object") ∧
        ¬∃ s, jsGetField v "id" = .vStr s ∧ s ≠ "")) ∧
    (validateTask v = .error .invalidId ↔
      ((v ≠ .vNull ∧ jsTypeof v = "object") ∧
        ∃ s, jsGetField v "id" = .vStr s ∧ s ≠ "" ∧
          uuidRegexTest s = false)) ∧
    (validateTask v = .error .invalidCompletedFlag ↔
      ((v ≠ .vNull ∧ jsTypeof v = "object") ∧
        (∃ s, jsGetField v "id" = .vStr s ∧ s ≠ "" ∧
          uuidRegexTest s = true) ∧
        (∃ t, validateTaskTitle (jsGetField v "title") = .ok t) ∧
        ¬∃ b, jsGetField v "completed" = .vBool b)) ∧
    (validateTask v = .ok () ↔
      ((v ≠ .vNull ∧ jsTypeof v = "object") ∧
        (∃ s, jsGetField v "id" = .vStr s ∧ s ≠ "" ∧
          uuidRegexTest s = true) ∧
        (∃ t, validateTaskTitle (jsGetField v "title") = .ok t) ∧
        ∃ b, jsGetField v "completed" = .vBool b)) ∧
    (∀ k, (k = ErrKind.invalidTitle ∨ k = ErrKind.emptyTitle ∨
        k = ErrKind.titleTooLong) →
      (validateTask v = .error k ↔
        ((v ≠ .vNull ∧ jsTypeof v = "object") ∧
          (∃ s, jsGetField v "id" = .vStr s ∧ s ≠ "" ∧
            uuidRegexTest s = true) ∧
          validateTaskTitle (jsGetField v "title") = .error k))) := by
  by_cases hobj : (!jsToBool v || jsTypeof v != "object") = true
  · have hval : validateTask v = .error .notAnObject := by
      unfold validateTask
      rw [hobj]
      rfl
    have hD : v = .vNull ∨ jsTypeof v ≠ "object" := (objCheck_true_iff v).mp hobj
    have hnot : ¬(v ≠ .vNull ∧ jsTypeof v = "object") := by
      rcases hD with h | h
      · exact fun hc => hc.1 h
      · exact fun hc => h hc.2
    refine ⟨iff_of_true hval hD,
      iff_of_false (by rw [hval]; simp) (fun hc => hnot hc.1),
      iff_of_false (by rw [hval]; simp) (fun hc => hnot hc.1),
      iff_of_false (by rw [hval]; simp) (fun hc => hnot hc.1),
      iff_of_false (by rw [hval]; simp) (fun hc => hnot hc.1), ?_⟩
    intro k hk
    refine iff_of_false ?_ (fun hc => hnot hc.1)
    rw [hval]
    rcases hk with rfl | rfl | rfl <;> simp
  · have hobj2 : (!jsToBool v || jsTypeof v != "object") = false :=
      Bool.eq_false_iff.mpr hobj
    have hD : ¬(v = .vNull ∨ jsTypeof v ≠ "object") := fun h =>
      absurd ((objCheck_true_iff v).mpr h) hobj
    have robj : v ≠ .vNull ∧ jsTypeof v = "object" := by
      push_neg at hD
      exact hD
    by_cases hid : (!jsToBool (jsGetField v "id") ||
        jsTypeof (jsGetField v "id") != "string") = true
    · have hval : validateTask v = .error .missingId := by
        unfold validateTask
        rw [hobj2, hid]
        rfl
      have rid : ¬∃ s, jsGetField v "id" = .vStr s ∧ s ≠ "" :=
        (idCheck_true_iff _).mp hid
      refine ⟨iff_of_false (by rw [hval]; simp) hD,
        iff_of_true hval ⟨robj, rid⟩,
        iff_of_false (by rw [hval]; simp) ?_,
        iff_of_false (by rw [hval]; simp) ?_,
        iff_of_false (by rw [hval]; simp) ?_, ?_⟩
      · rintro ⟨-, s, hs, hne, -⟩
        exact rid ⟨s, hs, hne⟩
      · rintro ⟨-, ⟨s, hs, hne, -⟩, -, -⟩
        exact rid ⟨s, hs, hne⟩
      · rintro ⟨-, ⟨s, hs, hne, -⟩, -, -⟩
        exact rid ⟨s, hs, hne⟩
      · intro k hk
        refine iff_of_false ?_ ?_
        · rw [hval]
          rcases hk with rfl | rfl | rfl <;> simp
        · rintro ⟨-, ⟨s, hs, hne, -⟩, -⟩
          exact rid ⟨s, hs, hne⟩
    · have hid2 : (!jsToBool (jsGetField v "id") ||
          jsTypeof (jsGetField v "id") != "string") = false :=
        Bool.eq_false_iff.mpr hid
      have hex : ∃ s, jsGetField v "id" = .vStr s ∧ s ≠ "" := by
        by_contra hc
        exact hid ((idCheck_true_iff _).mpr hc)
      obtain ⟨s, hs, hne⟩ := hex
      by_cases hu : uuidRegexTest s = true
      · have huc : (!isValidUUID (jsGetField v "id")) = false := by
          rw [hs]
          show (!uuidRegexTest s) = false
          rw [hu]
          rfl
        have hagree : ∀ s2, jsGetField v "id" = .vStr s2 →
            uuidRegexTest s2 = false → False := by
          intro s2 hs2 hu2
          rw [hs] at hs2
          injection hs2 with h
          rw [← h, hu] at hu2
          cases hu2
        cases ht : validateTaskTitle (jsGetField v "title") with
        | error e =>
          have hval : validateTask v = .error e := by
            unfold validateTask
            rw [hobj2, hid2, huc, ht]
            rfl
          have hkinds := validateTaskTitle_error_kinds _ _ ht
          have hne1 : e ≠ .notAnObject := by
            rcases hkinds with h | h | h <;> subst h <;> simp
          have hne2 : e ≠ .missingId := by
            rcases hkinds with h | h | h <;> subst h <;> simp
          have hne3 : e ≠ .invalidId := by
            rcases hkinds with h | h | h <;> subst h <;> simp
          have hne4 : e ≠ .invalidCompletedFlag := by
            rcases hkinds with h | h | h <;> subst h <;> simp
          refine ⟨iff_of_false (by rw [hval]; simp [hne1]) hD,
            iff_of_false (by rw [hval]; simp [hne2])
              (fun hc => hc.2 ⟨s, hs, hne⟩),
            iff_of_false (by rw [hval]; simp [hne3]) ?_,
            iff_of_false (by rw [hval]; simp [hne4]) ?_,
            iff_of_false (by rw [hval]; simp) ?_, ?_⟩
          · rintro ⟨-, s2, hs2, -, hu2⟩
            exact hagree s2 hs2 hu2
          · rintro ⟨-, -, ⟨t, htt⟩, -⟩
            cases htt
          · rintro ⟨-, -, ⟨t, htt⟩, -⟩
            cases htt
          · intro k hk
            constructor
            · intro h
              rw [hval] at h
              injection h with h2
              exact ⟨robj, ⟨s, hs, hne, hu⟩, by rw [h2]⟩
            · rintro ⟨-, -, htt⟩
              injection htt with h2
              rw [hval, h2]
        | ok t =>
          by_cases hcomp : jsTypeof (jsGetField v "completed") = "boolean"
          · have hcompb : (jsTypeof (jsGetField v "completed") != "boolean") =
                false := by
              rw [bne_eq_false_iff_eq]
              exact hcomp
            have hval : validateTask v = .ok () := by
              unfold validateTask
              rw [hobj2, hid2, huc, ht, hcompb]
              rfl
            have hbool : ∃ b, jsGetField v "completed" = .vBool b :=
              (typeof_boolean_iff _).mp hcomp
            refine ⟨iff_of_false (by rw [hval]; simp) hD,
              iff_of_false (by rw [hval]; simp)
                (fun hc => hc.2 ⟨s, hs, hne⟩),
              iff_of_false (by rw [hval]; simp) ?_,
              iff_of_false (by rw [hval]; simp) (fun hc => hc.2.2.2 hbool),
              iff_of_true hval ⟨robj, ⟨s, hs, hne, hu⟩, ⟨t, rfl⟩, hbool⟩, ?_⟩
            · rintro ⟨-, s2, hs2, -, hu2⟩
              exact hagree s2 hs2 hu2
            · intro k hk
              refine iff_of_false ?_ ?_
              · rw [hval]
                simp
              · rintro ⟨-, -, htt⟩
                cases htt
          · have hcompb : (jsTypeof (jsGetField v "completed") != "boolean") =
                true := by
              rw [bne_iff_ne]
              exact hcomp
            have hval : validateTask v = .error .invalidCompletedFlag := by
              unfold validateTask
              rw [hobj2, hid2, huc, ht, hcompb]
              rfl
            have rcomp : ¬∃ b, jsGetField v "completed" = .vBool b := by
              rintro ⟨b, hb⟩
              exact hcomp (by rw [hb]; rfl)
            refine ⟨iff_of_false (by rw [hval]; simp) hD,
              iff_of_false (by rw [hval]; simp)
                (fun hc => hc.2 ⟨s, hs, hne⟩),
              iff_of_false (by rw [hval]; simp) ?_,
              iff_of_true hval ⟨robj, ⟨s, hs, hne, hu⟩, ⟨t, rfl⟩, rcomp⟩,
              iff_of_false (by rw [hval]; simp) (fun hc => rcomp hc.2.2.2),
              ?_⟩
            · rintro ⟨-, s2, hs2, -, hu2⟩
              exact hagree s2 hs2 hu2
            · intro k hk
              refine iff_of_false ?_ ?_
              · rw [hval]
                rcases hk with rfl | rfl | rfl <;> simp
              · rintro ⟨-, -, htt⟩
                cases htt
      · have hu2 : uuidRegexTest s = false := Bool.eq_false_iff.mpr hu
        have huc : (!isValidUUID (jsGetField v "id")) = true := by
          rw [hs]
          show (!uuidRegexTest s) = true
          rw [hu2]
          rfl
        have hval : validateTask v = .error .invalidId := by
          unfold validateTask
          rw [hobj2, hid2, huc]
          rfl
        have hagree2 : ∀ s2, jsGetField v "id" = .vStr s2 →
            uuidRegexTest s2 = true → False := by
          intro s2 hs2 hu3
          rw [hs] at hs2
          injection hs2 with h
          rw [← h, hu2] at hu3
          cases hu3
        refine ⟨iff_of_false (by rw [hval]; simp) hD,
          iff_of_false (by rw [hval]; simp)
            (fun hc => hc.2 ⟨s, hs, hne⟩),
          iff_of_true hval ⟨robj, s, hs, hne, hu2⟩,
          iff_of_false (by rw [hval]; simp) ?_,
          iff_of_false (by rw [hval]; simp) ?_, ?_⟩
        · rintro ⟨-, ⟨s2, hs2, -, hu3⟩, -, -⟩
          exact hagree2 s2 hs2 hu3
        · rintro ⟨-, ⟨s2, hs2, -, hu3⟩, -, -⟩
          exact hagree2 s2 hs2 hu3
        · intro k hk
          refine iff_of_false ?_ ?_
          · rw [hval]
            rcases hk with rfl | rfl | rfl <;> simp
          · rintro ⟨-, ⟨s2, hs2, -, hu3⟩, -⟩
            exact hagree2 s2 hs2 hu3

/-- Witness for C4 at concrete candidates: a fully valid task is accepted
and a non-object is rejected as not an object, each through the amended
characterization with its side conditions discharged. -/
theorem validateTask_cases_witness :
    validateTask (.vObj [("id", .vStr "550e8400-e29b-41d4-a716-446655440000"),
      ("title", .vStr "hi"), ("completed", .vBool true)]) = .ok () ∧
    validateTask (.vNum 3) = .error .notAnObject ∧
    validateTask (.vObj [("id", .vStr "550e8400-e29b-41d4-a716-446655440000"),
      ("title", .vStr "   "), ("completed", .vBool true)]) =
      .error .emptyTitle := by
  refine ⟨?_, ?_, ?_⟩
  · exact ((validateTask_cases _).2.2.2.2.1).mpr ⟨⟨by simp, rfl⟩,
      ⟨"550e8400-e29b-41d4-a716-446655440000", rfl, by decide, rfl⟩,
      ⟨"hi", rfl⟩, ⟨true, rfl⟩⟩
  · exact (validateTask_cases _).1.mpr (Or.inr (by decide))
  · exact ((validateTask_cases _).2.2.2.2.2 .emptyTitle
      (Or.inr (Or.inl rfl))).mpr ⟨⟨by simp, rfl⟩,
      ⟨"550e8400-e29b-41d4-a716-446655440000", rfl, by decide, rfl⟩, rfl⟩

/-- Counterexample to C4 as stated: a candidate whose id field is the
empty string — a string that is not UUID-v4-shaped, so the claim requires
the InvalidId kind — is rejected by validateTask with the MissingId kind,
because the truthiness test `!task.id` also catches the empty string. -/
theorem validateTask_emptyId_cex :
    validateTask (.vObj [("id", .vStr ""), ("title", .vStr "task"),
      ("completed", .vBool false)]) = .error .missingId ∧
    jsTypeof (jsGetField (.vObj [("id", .vStr ""), ("title", .vStr "task"),
      ("completed", .vBool false)]) "id") = "string" ∧
    isValidUUID (jsGetField (.vObj [("id", .vStr ""), ("title", .vStr "task"),
      ("completed", .vBool false)]) "id") = false :=
  ⟨rfl, rfl, rfl⟩

end TaskManager
